import Mathlib

/-!
Shallow embedding of the PLY loader (`src/lxserv/plykit_loader.py`) and proofs
about its header parser (`load_Recognize`) and element decoder
(`load_LoadObject`).

Modelling conventions:
* The loader reads its file either line-by-line (`readline`: the header and the
  ASCII data section) or in byte chunks (`read`: the binary data section).  The
  header/ASCII paths are embedded over a `List String` of lines together with
  the rule that `readline` at end-of-stream returns the empty string; the
  binary paths are embedded over a `List UInt8` with an explicit byte cursor,
  `read n` returning `(bytes.drop pos).take n`.
* Python exceptions (`ValueError`, `struct.error`, ...) and `lx.throw`
  results are modelled by the `PyErr` error type of an `Except` result.
  `struct.error` raised at line 193 of the source is re-raised after printing
  the attempted byte size, the format string and the byte position of the
  record (lines 196-198); that observable report is modelled by the payload of
  `PyErr.structErrorLoc`.  All other exceptions carry no payload, as the code
  attaches no element name, record index or offset to them.
* `struct.unpack`/`struct.unpack_from` of big-endian integer formats are
  decoded exactly; `f`/`d` (IEEE floats) are decoded to their raw big-endian
  bit patterns (`Value.f32`/`Value.f64`), which is injective on the byte level
  and sufficient for every claim considered here.
* Python `int(...)` on a `split()` token is modelled by `pyInt` (optional
  sign followed by digits); `float(...)` is modelled by `pyFloat` on plain
  decimal forms, returning an exact rational.  The claims below depend only on
  these being functions that can fail, never on rounding.
-/

namespace Plykit

/-- Struct format characters, the values of the `binary_property_types`
dictionary of the source. -/
inductive StructChar
  | b | B | h | H | i | I | f | d
deriving DecidableEq

/-- The `binary_property_types` dictionary: ply property type names to struct
format characters; `.get` returns `none` for unknown names. -/
def binary_property_types (s : String) : Option StructChar :=
  if s = "char" then some .b
  else if s = "uchar" then some .B
  else if s = "short" then some .h
  else if s = "ushort" then some .H
  else if s = "int" then some .i
  else if s = "uint" then some .I
  else if s = "float" then some .f
  else if s = "double" then some .d
  else none

/-- Byte size of one struct format character (`struct.calcsize` of the single
character; big-endian formats have no padding). -/
def csize : StructChar → Nat
  | .b => 1
  | .B => 1
  | .h => 2
  | .H => 2
  | .i => 4
  | .I => 4
  | .f => 4
  | .d => 8

/-- `struct.calcsize` of a big-endian format string, as the list of its
format characters. -/
def calcsize (fmt : List StructChar) : Nat :=
  (fmt.map csize).sum

/-- A decoded property value.  Integer formats decode to `int`; ASCII
`float()` conversion gives an exact rational `rat`; binary `f`/`d` formats
decode to their raw bit patterns. -/
inductive Value
  | int (i : Int)
  | rat (q : Rat)
  | f32 (bits : Nat)
  | f64 (bits : Nat)
deriving DecidableEq

/-- Digits of a decimal numeral to a natural number. -/
def digitsToNat (ds : List Char) : Nat :=
  ds.foldl (fun a c => a * 10 + (c.toNat - 48)) 0

/-- Python `int(token)` on a whitespace-free token: optional sign followed by
one or more decimal digits; anything else raises `ValueError` (`none`). -/
def pyInt (s : String) : Option Int :=
  match s.data with
  | [] => none
  | '+' :: ds =>
      if ds ≠ [] ∧ ds.all Char.isDigit then some (digitsToNat ds) else none
  | '-' :: ds =>
      if ds ≠ [] ∧ ds.all Char.isDigit then some (-(digitsToNat ds : Int)) else none
  | ds =>
      if ds.all Char.isDigit then some (digitsToNat ds) else none

/-- Value of an unsigned decimal with an optional fractional part. -/
def decimalToRat (ipart fpart : List Char) : Rat :=
  (digitsToNat ipart : Rat) + (digitsToNat fpart : Rat) / ((10 : Rat) ^ fpart.length)

/-- Python `float(token)` on plain decimal forms (`d`, `d.d`, `d.`, `.d`,
optionally signed); other accepted spellings (exponents, `inf`, `nan`) do not
occur in the inputs considered here.  Failure is `none` (`ValueError`). -/
def pyFloat (s : String) : Option Value :=
  let core : List Char → Option Value := fun ds =>
    match ds.splitOn '.' with
    | [ipart] => if ipart ≠ [] ∧ ipart.all Char.isDigit then some (.rat (decimalToRat ipart [])) else none
    | [ipart, fpart] =>
        if (ipart ≠ [] ∨ fpart ≠ []) ∧ ipart.all Char.isDigit ∧ fpart.all Char.isDigit then
          some (.rat (decimalToRat ipart fpart))
        else none
    | _ => none
  match s.data with
  | '+' :: ds => core ds
  | '-' :: ds =>
      match core ds with
      | some (.rat q) => some (.rat (-q))
      | _ => none
  | ds => core ds

/-- The `ascii_property_types` dictionary: ply property type names to the
text-to-number conversion functions `int` and `float`. -/
def ascii_property_types (s : String) : Option (String → Option Value) :=
  if s = "char" ∨ s = "uchar" ∨ s = "short" ∨ s = "ushort" ∨ s = "int" ∨ s = "uint" then
    some (fun t => (pyInt t).map Value.int)
  else if s = "float" ∨ s = "double" then some pyFloat
  else none

/-- Split a character list at the characters satisfying `p`, keeping empty
pieces. -/
def splitChars (p : Char → Bool) : List Char → List Char → List (List Char)
  | [], acc => [acc.reverse]
  | c :: cs, acc =>
    if p c then acc.reverse :: splitChars p cs []
    else splitChars p cs (c :: acc)

/-- Python `str.split()` with no argument: split on whitespace runs, dropping
empty pieces. -/
def pySplit (s : String) : List String :=
  ((splitChars Char.isWhitespace s.data []).filter (fun t => t ≠ [])).map
    (fun cs => String.mk cs)

/-- Python `str.strip()`: drop leading and trailing whitespace. -/
def pyStrip (s : String) : String :=
  String.mk (((s.data.dropWhile Char.isWhitespace).reverse.dropWhile Char.isWhitespace).reverse)

/-- Python `str.startswith(p)`. -/
def startswith (p s : String) : Bool :=
  p.data.isPrefixOf s.data

/-- Python `str[n:]`: drop the first `n` characters. -/
def strDrop (s : String) (n : Nat) : String :=
  String.mk (s.data.drop n)

/-- A property dictionary of the header parser:
`{"name": ..., "type": ...}` for a scalar property and
`{"name": ..., "type": ..., "size": ...}` for a list property, the optional
`"size"` key holding the name of the list count type. -/
structure Property where
  name : String
  type : String
  size : Option String
deriving DecidableEq

/-- An element dictionary of the header parser:
`{"name": ..., "count": ..., "properties": [...]}`.  `count` is `int(count)`
of the header token, hence an integer. -/
structure Element where
  name : String
  count : Int
  properties : List Property
deriving DecidableEq

/-- Errors: `lx.throw(lx.result.NOTFOUND)` and the Python exceptions the
loader can raise.  `structErrorLoc` is the `struct.error` of source line 193,
whose handler prints the attempted byte size, the format string
(`'>' + str(n) + c`) and the byte position of the start of the record before
re-raising; those are its payload.  No other failure carries any data. -/
inductive PyErr
  | notFound
  | valueError
  | attributeError
  | typeError
  | keyError
  | indexError
  | zeroDivisionError
  | structError
  | structErrorLoc (size : Nat) (n : Nat) (c : StructChar) (pos : Nat)
deriving DecidableEq

/-- Monitor events: `Monitor.Initialize(n)` and `Monitor.Increment(n)`. -/
inductive MonEvent
  | init (n : Int)
  | inc (n : Int)
deriving DecidableEq

/-- Equality of `Except` results is decidable componentwise. -/
instance {ε α : Type} [DecidableEq ε] [DecidableEq α] : DecidableEq (Except ε α) :=
  fun a b =>
    match a, b with
    | .error x, .error y =>
      if h : x = y then isTrue (by rw [h]) else isFalse (by intro hh; cases hh; exact h rfl)
    | .ok x, .ok y =>
      if h : x = y then isTrue (by rw [h]) else isFalse (by intro hh; cases hh; exact h rfl)
    | .error _, .ok _ => isFalse (fun h => Except.noConfusion h)
    | .ok _, .error _ => isFalse (fun h => Except.noConfusion h)

/-- A Python `for` loop that applies `f` to each item, collecting results and
propagating the first exception. -/
def forLoop {α β : Type} (f : α → Except PyErr β) : List α → Except PyErr (List β)
  | [] => .ok []
  | a :: l =>
    match f a with
    | .error er => .error er
    | .ok b =>
      match forLoop f l with
      | .error er => .error er
      | .ok bs => .ok (b :: bs)

/-- Big-endian bytes to an unsigned natural number. -/
def beNat (bs : List UInt8) : Nat :=
  bs.foldl (fun a b => a * 256 + b.toNat) 0

/-- Two's-complement reading of an unsigned `bits`-bit value. -/
def toSigned (bits : Nat) (v : Nat) : Int :=
  if v < 2 ^ (bits - 1) then (v : Int) else (v : Int) - 2 ^ bits

/-- Decode one big-endian scalar of format character `c` from the first
`csize c` bytes of `bs`. -/
def decodeScalarBE : StructChar → List UInt8 → Value
  | .b, bs => .int (toSigned 8 (beNat (bs.take 1)))
  | .B, bs => .int (beNat (bs.take 1))
  | .h, bs => .int (toSigned 16 (beNat (bs.take 2)))
  | .H, bs => .int (beNat (bs.take 2))
  | .i, bs => .int (toSigned 32 (beNat (bs.take 4)))
  | .I, bs => .int (beNat (bs.take 4))
  | .f, bs => .f32 (beNat (bs.take 4))
  | .d, bs => .f64 (beNat (bs.take 8))

/-- Decode the scalars of a big-endian format string left to right from `bs`. -/
def decodeRecord : List StructChar → List UInt8 → List Value
  | [], _ => []
  | c :: cs, bs => decodeScalarBE c bs :: decodeRecord cs (bs.drop (csize c))

/-- `struct.unpack_from(fmt, data, offset)`: requires
`len(data) - offset >= calcsize(fmt)`, raising `struct.error` otherwise. -/
def unpackFrom (fmt : List StructChar) (data : List UInt8) (offset : Nat) :
    Except PyErr (List Value) :=
  if offset + calcsize fmt ≤ data.length then .ok (decodeRecord fmt (data.drop offset))
  else .error .structError

/-- Lines 144-146 of the source: `fmt = '>'` extended by
`binary_property_types.get(prop.get('type'))` per property; appending the
`None` of an unknown type name raises `TypeError`. -/
def buildFmt : List Property → Option (List StructChar)
  | [] => some []
  | p :: ps =>
    match binary_property_types p.type, buildFmt ps with
    | some c, some cs => some (c :: cs)
    | _, _ => none

/-- Lines 143-170 of the source: the chunked big-endian decode of the
all-scalar `vertex` element.  `chunk_size` is the constant `1024` of line 141,
kept as a parameter.  Python raises `ZeroDivisionError` at `chunk_size % size`
when `size == 0` and at `total_size // read_size` when `read_size == 0`.
Division and remainder on the (possibly negative) `total_size` are Python's
floor division and floor remainder, `Int.fdiv`/`Int.fmod`.  Reading chunk `i`
from the file equals `(bytes.drop (pos + i * read_size)).take read_size`:
while every earlier read is full this is the bytes at the running cursor, and
once a read comes up short every later read returns `[]` either way.  Returns
the decoded records, the monitor events and the final byte position. -/
def beVertexDecode (chunk_size : Nat) (props : List Property) (count : Int)
    (bytes : List UInt8) (pos : Nat) :
    Except PyErr (List (List Value) × List MonEvent × Nat) :=
  match buildFmt props with
  | none => .error .typeError
  | some fmt =>
    let size := calcsize fmt
    if size = 0 then .error .zeroDivisionError
    else
      let total_size : Int := (size : Int) * count
      let read_size : Nat := chunk_size - chunk_size % size
      if read_size = 0 then .error .zeroDivisionError
      else
        let num_reads : Int := Int.fdiv total_size (read_size : Int)
        let num_verts : Nat := read_size / size
        let overflow : Int := Int.fmod total_size (read_size : Int)
        match forLoop
            (fun i => forLoop
              (fun x => unpackFrom fmt ((bytes.drop (pos + i * read_size)).take read_size) (x * size))
              (List.range num_verts))
            (List.range num_reads.toNat) with
        | .error er => .error er
        | .ok chunkVerts =>
          match forLoop
              (fun x => unpackFrom fmt
                ((bytes.drop (pos + num_reads.toNat * read_size)).take overflow.toNat) (x * size))
              (List.range (Int.fdiv overflow (size : Int)).toNat) with
          | .error er => .error er
          | .ok tailVerts =>
            let verts := chunkVerts.flatten ++ tailVerts
            .ok (verts,
              MonEvent.init (if overflow ≠ 0 then num_reads + 1 else num_reads)
                :: verts.map (fun _ => MonEvent.inc 1),
              min (pos + num_reads.toNat * read_size + overflow.toNat) bytes.length)

/-- Lines 175-201 of the source: decode one `face` record at byte position
`pos`.  `element['properties'][0]` raises `IndexError` on an empty property
list and `['size']` raises `KeyError` on a scalar property; unknown type names
make `'>' + None` raise `TypeError`.  `struct.unpack` demands a buffer of
exactly the computed size, raising `struct.error` on a short read of the count
field (uncaught, line 185) and, for the values (line 193), the caught-and-
re-raised error modelled by `structErrorLoc` with the printed payload.  A
non-integer count value or a negative count makes the format string
`'>' + str(num_indices) + t` invalid, a bare `struct.error`. -/
def beFaceRecord (e : Element) (bytes : List UInt8) (pos : Nat) :
    Except PyErr (List Value × Nat) :=
  match e.properties with
  | [] => .error .indexError
  | p0 :: _ =>
    match p0.size with
    | none => .error .keyError
    | some sname =>
      match binary_property_types sname with
      | none => .error .typeError
      | some cc =>
        let size := calcsize [cc]
        let data := (bytes.drop pos).take size
        if data.length ≠ size then .error .structError
        else
          match decodeScalarBE cc data with
          | .int num_indices =>
            match binary_property_types p0.type with
            | none => .error .typeError
            | some t =>
              if num_indices < 0 then .error .structError
              else
                let size2 := calcsize (List.replicate num_indices.toNat t)
                let data2 := (bytes.drop (pos + size)).take size2
                if data2.length ≠ size2 then
                  .error (.structErrorLoc size2 num_indices.toNat t pos)
                else .ok (decodeRecord (List.replicate num_indices.toNat t) data2, pos + size + size2)
          | _ => .error .structError

/-- The `for _ in range(face_count)` loop of lines 175-201, one
`Monitor.Increment(1)` per fully decoded record. -/
def beFaceLoop (e : Element) (bytes : List UInt8) :
    Nat → Nat → Except PyErr (List (List Value) × List MonEvent × Nat)
  | 0, pos => .ok ([], [], pos)
  | Nat.succ k, pos =>
    match beFaceRecord e bytes pos with
    | .error er => .error er
    | .ok (fc, pos') =>
      match beFaceLoop e bytes k pos' with
      | .error er => .error er
      | .ok (fs, tr, pos'') => .ok (fc :: fs, MonEvent.inc 1 :: tr, pos'')

/-- Lines 172-201 of the source: the `face` element branch,
`Monitor.Initialize(face_count)` followed by the record loop. -/
def beFaceDecode (e : Element) (bytes : List UInt8) (pos : Nat) :
    Except PyErr (List (List Value) × List MonEvent × Nat) :=
  match beFaceLoop e bytes e.count.toNat pos with
  | .error er => .error er
  | .ok (fs, tr, pos') => .ok (fs, MonEvent.init e.count :: tr, pos')

/-- The `for element in self.elements` loop of the `binary_big_endian` branch
(lines 142-201): `vertex` elements feed the vertex list, `face` elements the
face list, and elements with any other name fall through both `if` tests,
consuming nothing. -/
def beLoadElements :
    List Element → List UInt8 → Nat →
    Except PyErr (List (List Value) × List (List Value) × List MonEvent × Nat)
  | [], _, pos => .ok ([], [], [], pos)
  | e :: rest, bytes, pos =>
    if e.name = "vertex" then
      match beVertexDecode 1024 e.properties e.count bytes pos with
      | .error er => .error er
      | .ok (vs, tr, pos') =>
        match beLoadElements rest bytes pos' with
        | .error er => .error er
        | .ok (vs2, fs2, tr2, pos'') => .ok (vs ++ vs2, fs2, tr ++ tr2, pos'')
    else if e.name = "face" then
      match beFaceDecode e bytes pos with
      | .error er => .error er
      | .ok (fs, tr, pos') =>
        match beLoadElements rest bytes pos' with
        | .error er => .error er
        | .ok (vs2, fs2, tr2, pos'') => .ok (vs2, fs ++ fs2, tr ++ tr2, pos'')
    else beLoadElements rest bytes pos

/-- Lines 140-207 of `load_LoadObject` for the binary formats: the
`binary_big_endian` branch decodes; the `binary_little_endian` branch (line
203-204) and the final `else` (line 206-207) are `pass`, leaving the vertex
and face lists empty and the stream untouched. -/
def load_LoadObject_bytes (format : Option String) (elements : List Element)
    (bytes : List UInt8) (end_header : Nat) :
    Except PyErr (List (List Value) × List (List Value) × List MonEvent × Nat) :=
  if format = some "binary_big_endian" then beLoadElements elements bytes end_header
  else if format = some "binary_little_endian" then .ok ([], [], [], end_header)
  else .ok ([], [], [], end_header)

/-- `filehandle.readline()` in the line model: the next line, or `""` once
end-of-stream is reached. -/
def readline : List String → String × List String
  | [] => ("", [])
  | l :: rest => (l, rest)

/-- One conversion step of line 128 of the source,
`t(value) for t, value in zip(types, ...)`: `t` is the
`ascii_property_types.get(...)` result, so calling a `None` raises
`TypeError`, and a failing `int`/`float` conversion raises `ValueError`. -/
def convStep : Option (String → Option Value) × String → Except PyErr Value
  | (none, _) => .error .typeError
  | (some t, v) =>
    match t v with
    | none => .error .valueError
    | some w => .ok w

/-- Line 128 of the source: split the stripped line on whitespace and convert
tokenwise, zipped against the expected types; `zip` stops at the shorter
sequence. -/
def asciiVertexLine (types : List (Option (String → Option Value))) (line : String) :
    Except PyErr (List Value) :=
  forLoop convStep (types.zip (pySplit (pyStrip line)))

/-- Lines 127-129 of the source: read `count` lines, decode each and keep the
first three converted values (`data[:3]`). -/
def asciiVertexLoop (types : List (Option (String → Option Value))) :
    Nat → List String → Except PyErr (List (List Value) × List String)
  | 0, lines => .ok ([], lines)
  | Nat.succ k, lines =>
    match asciiVertexLine types (readline lines).1 with
    | .error er => .error er
    | .ok record =>
      match asciiVertexLoop types k (readline lines).2 with
      | .error er => .error er
      | .ok (vs, rest) => .ok (record.take 3 :: vs, rest)

/-- `int(d)` on a face token: `ValueError` when the token is not an integer
numeral. -/
def intStep (d : String) : Except PyErr Int :=
  match pyInt d with
  | none => .error .valueError
  | some i => .ok i

/-- Lines 136-137 of the source: split the stripped line on whitespace and
convert every token after the first with `int`; the first token is dropped
unexamined (`data[1:]`). -/
def asciiFaceLine (line : String) : Except PyErr (List Int) :=
  forLoop intStep ((pySplit (pyStrip line)).drop 1)

/-- Lines 135-137 of the source: read `count` lines and decode each face. -/
def asciiFaceLoop :
    Nat → List String → Except PyErr (List (List Int) × List String)
  | 0, lines => .ok ([], lines)
  | Nat.succ k, lines =>
    match asciiFaceLine (readline lines).1 with
    | .error er => .error er
    | .ok fc =>
      match asciiFaceLoop k (readline lines).2 with
      | .error er => .error er
      | .ok (fs, rest) => .ok (fc :: fs, rest)

/-- The `for element in self.elements` loop of the `ascii` branch (lines
117-138): `vertex` elements feed the vertex list, `face` elements the face
list, and elements with any other name fall through both tests, consuming no
lines. -/
def asciiElements :
    List Element → List String →
    Except PyErr (List (List Value) × List (List Int) × List String)
  | [], lines => .ok ([], [], lines)
  | e :: rest, lines =>
    if e.name = "vertex" then
      match asciiVertexLoop (e.properties.map (fun p => ascii_property_types p.type))
          e.count.toNat lines with
      | .error er => .error er
      | .ok (vs, lines') =>
        match asciiElements rest lines' with
        | .error er => .error er
        | .ok (vs2, fs2, lines'') => .ok (vs ++ vs2, fs2, lines'')
    else if e.name = "face" then
      match asciiFaceLoop e.count.toNat lines with
      | .error er => .error er
      | .ok (fs, lines') =>
        match asciiElements rest lines' with
        | .error er => .error er
        | .ok (vs2, fs2, lines'') => .ok (vs2, fs ++ fs2, lines'')
    else asciiElements rest lines

/-- The session state mutated across `load_Recognize` and `load_LoadObject`:
`self.format`, `self.comments`, `self.elements` (as set by `__init__`:
`None`, `[]`, `[]`).  `self.end_header` is represented in the line model by
`load_Recognize` returning the data-section lines directly (the
`tell`/`seek(end_header)` pair). -/
structure LoaderState where
  format : Option String
  comments : List String
  elements : List Element
deriving DecidableEq

/-- The state `PLYLoader.__init__` builds. -/
def initState : LoaderState :=
  { format := none, comments := [], elements := [] }

/-- Append a parsed property to the current element.  The loop's `element`
variable is `None` exactly while no `element` line has been seen in this call,
i.e. while the (freshly cleared) element list is empty; appending to `None`
raises `AttributeError`.  Because each parsed element dictionary is appended
to `self.elements` immediately and aliased by `element`, a property always
attaches to the most recently appended element. -/
def attachProp : List Element → Property → Except PyErr (List Element)
  | [], _ => .error .attributeError
  | [e], p => .ok [{ e with properties := e.properties ++ [p] }]
  | e :: e2 :: rest, p =>
    match attachProp (e2 :: rest) p with
    | .error er => .error er
    | .ok r => .ok (e :: r)

/-- Lines 293-329 of the source: the header loop.  `readline` at
end-of-stream yields `""`, so the stripped line is empty and the loop throws
`NOTFOUND` — the `[]` case.  Line order matches the source: empty line,
`end_header`, `comment` prefix (the comment text is `line[8:]`), `element`
(exactly three tokens, integer count), `property` (three or five tokens),
anything else `NOTFOUND`. -/
def headerLoop (comments : List String) (elements : List Element) :
    List String → Except PyErr (List String × List Element × List String)
  | [] => .error .notFound
  | l :: rest =>
    let line := pyStrip l
    if line = "" then .error .notFound
    else if line = "end_header" then .ok (comments, elements, rest)
    else if startswith "comment" line then
      headerLoop (comments ++ [strDrop line 8]) elements rest
    else if startswith "element" line then
      match pySplit line with
      | [_, nm, cnt] =>
        match pyInt cnt with
        | none => .error .valueError
        | some c => headerLoop comments (elements ++ [⟨nm, c, []⟩]) rest
      | _ => .error .valueError
    else if startswith "property" line then
      match pySplit line with
      | [_, datatype, nm] =>
        match attachProp elements ⟨nm, datatype, none⟩ with
        | .error er => .error er
        | .ok els => headerLoop comments els rest
      | [_, _, sz, datatype, nm] =>
        match attachProp elements ⟨nm, datatype, some sz⟩ with
        | .error er => .error er
        | .ok els => headerLoop comments els rest
      | _ => .error .notFound
    else .error .notFound

/-- Lines 257-340 of the source, `load_Recognize`: clear `self.elements` (but
not `self.comments`), check the `ply` magic line, read the format line —
`_, format, version = line.split()` raises `ValueError` unless it has exactly
three tokens — accept only the three known format names (`NOTFOUND`
otherwise), then run the header loop.  Returns the updated session state and
the data-section lines. -/
def load_Recognize (st : LoaderState) (lines : List String) :
    Except PyErr (LoaderState × List String) :=
  let st0 : LoaderState := { st with elements := [] }
  if pyStrip (readline lines).1 ≠ "ply" then .error .notFound
  else
    match pySplit (readline (readline lines).2).1 with
    | [_, fm, _] =>
      if fm = "ascii" ∨ fm = "binary_big_endian" ∨ fm = "binary_little_endian" then
        match headerLoop st0.comments st0.elements (readline (readline lines).2).2 with
        | .error er => .error er
        | .ok (cs, els, rest) =>
          .ok ({ format := some fm, comments := cs, elements := els }, rest)
      else .error .notFound
    | _ => .error .valueError

/-- Lines 107-255 of `load_LoadObject` in the line model: the `ascii` branch
decodes the data lines; the binary and unknown branches of the byte model are
`load_LoadObject_bytes`.  Returns the vertex and face lists handed to the
geometry collaborator. -/
def load_LoadObject_lines (st : LoaderState) (dataLines : List String) :
    Except PyErr (List (List Value) × List (List Int)) :=
  if st.format = some "ascii" then
    match asciiElements st.elements dataLines with
    | .error er => .error er
    | .ok (vs, fs, _) => .ok (vs, fs)
  else .ok ([], [])

/-- One full recognize-then-load session on an open file: `load_Recognize`
followed by `load_LoadObject`, returning `(vertices, faces, comments)` — the
comments are those held by the session state after recognition (they are
attached to the mesh at lines 248-251) — together with the session state the
next call starts from. -/
def runLoad (st : LoaderState) (lines : List String) :
    Except PyErr ((List (List Value) × List (List Int) × List String) × LoaderState) :=
  match load_Recognize st lines with
  | .error er => .error er
  | .ok (st', rest) =>
    match load_LoadObject_lines st' rest with
    | .error er => .error er
    | .ok (vs, fs) => .ok ((vs, fs, st'.comments), st')

/-! ### Helper lemmas -/

theorem forLoop_ok {α β : Type} (f : α → Except PyErr β) (g : α → β) :
    ∀ l : List α, (∀ x ∈ l, f x = .ok (g x)) → forLoop f l = .ok (l.map g)
  | [], _ => rfl
  | a :: l, h => by
    have ha := h a (List.mem_cons_self a l)
    have ih := forLoop_ok f g l (fun x hx => h x (List.mem_cons_of_mem a hx))
    simp [forLoop, ha, ih]

theorem forLoop_ok_exists {α β : Type} (f : α → Except PyErr β) :
    ∀ l : List α, (∀ x ∈ l, ∃ y, f x = .ok y) →
      ∃ ys, forLoop f l = .ok ys ∧ ys.length = l.length
  | [], _ => ⟨[], rfl, rfl⟩
  | a :: l, h => by
    obtain ⟨y, hy⟩ := h a (List.mem_cons_self a l)
    obtain ⟨ys, hys, hlen⟩ :=
      forLoop_ok_exists f l (fun x hx => h x (List.mem_cons_of_mem a hx))
    exact ⟨y :: ys, by simp [forLoop, hy, hys], by simp [hlen]⟩

theorem forLoop_error {α β : Type} (f : α → Except PyErr β) :
    ∀ (l : List α) (e : PyErr), forLoop f l = .error e → ∃ x ∈ l, f x = .error e := by
  intro l
  induction l with
  | nil => intro e h; exact absurd h (by simp [forLoop])
  | cons a l ih =>
    intro e h
    rw [forLoop] at h
    rcases hfa : f a with er | b
    · rw [hfa] at h
      exact ⟨a, List.mem_cons_self a l, by rw [hfa]; cases h; rfl⟩
    · rw [hfa] at h
      rcases hfl : forLoop f l with er2 | bs
      · rw [hfl] at h
        obtain ⟨x, hx, hfx⟩ := ih er2 hfl
        exact ⟨x, List.mem_cons_of_mem a hx, by cases h; exact hfx⟩
      · rw [hfl] at h; cases h

theorem csize_pos (c : StructChar) : 0 < csize c := by
  cases c <;> decide

theorem decodeScalarBE_take (c : StructChar) (m : Nat) (l : List UInt8) (h : csize c ≤ m) :
    decodeScalarBE c (l.take m) = decodeScalarBE c l := by
  cases c <;> simp only [decodeScalarBE, List.take_take] <;>
    rw [Nat.min_eq_left (by simpa [csize] using h)]

theorem decodeRecord_take : ∀ (fmt : List StructChar) (m : Nat) (l : List UInt8),
    calcsize fmt ≤ m → decodeRecord fmt (l.take m) = decodeRecord fmt l
  | [], _, _, _ => rfl
  | c :: cs, m, l, h => by
    have hsum : calcsize (c :: cs) = csize c + calcsize cs := by simp [calcsize]
    have hc : csize c ≤ m := by omega
    have hcs : calcsize cs ≤ m - csize c := by omega
    rw [decodeRecord, decodeRecord, decodeScalarBE_take c m l hc, List.drop_take,
      decodeRecord_take cs (m - csize c) (l.drop (csize c)) hcs]

theorem range_map_add {α : Type} (F : Nat → α) (a b : Nat) :
    (List.range (a + b)).map F
      = (List.range a).map F ++ (List.range b).map (fun x => F (a + x)) := by
  rw [List.range_add]
  simp [Function.comp_def]

theorem flatten_grid {α : Type} (F : Nat → α) (k : Nat) :
    ∀ q : Nat,
      (((List.range q).map (fun i => (List.range k).map (fun x => F (i * k + x)))).flatten)
        = (List.range (q * k)).map F
  | 0 => by simp
  | q + 1 => by
    rw [List.range_succ]
    simp only [List.map_append, List.map_cons, List.map_nil, List.flatten_append,
      List.flatten_cons, List.flatten_nil, List.append_nil]
    rw [flatten_grid F k q]
    have h1 : (q + 1) * k = q * k + k := by ring
    rw [h1, range_map_add]

theorem nat_fdiv (a b : Nat) : ((a : Int)).fdiv ((b : Int)) = ((a / b : Nat) : Int) := by
  rw [Int.fdiv_eq_ediv _ (Int.natCast_nonneg b)]
  exact_mod_cast rfl

theorem nat_fmod (a b : Nat) : ((a : Int)).fmod ((b : Int)) = ((a % b : Nat) : Int) := by
  rw [Int.fmod_eq_emod _ (Int.natCast_nonneg b)]
  exact_mod_cast rfl


theorem unpackFrom_slice (fmt : List StructChar) (bytes : List UInt8)
    (base cap off : Nat)
    (h1 : off + calcsize fmt ≤ cap)
    (h2 : base + off + calcsize fmt ≤ bytes.length) :
    unpackFrom fmt ((bytes.drop base).take cap) off
      = .ok (decodeRecord fmt (bytes.drop (base + off))) := by
  have hlen : ((bytes.drop base).take cap).length = min cap (bytes.length - base) := by
    simp
  rw [unpackFrom, if_pos (by rw [hlen]; omega)]
  rw [List.drop_take, List.drop_drop]
  rw [decodeRecord_take _ _ _ (by omega)]

theorem chunk_rows_eval (fmt : List StructChar) (bytes : List UInt8)
    (pos k q r : Nat)
    (hlen : pos + calcsize fmt * (k * q + r) ≤ bytes.length) :
    forLoop
        (fun i => forLoop
          (fun x => unpackFrom fmt
            ((bytes.drop (pos + i * (calcsize fmt * k))).take (calcsize fmt * k))
            (x * calcsize fmt))
          (List.range k))
        (List.range q)
      = .ok ((List.range q).map (fun i => (List.range k).map
          (fun x => decodeRecord fmt (bytes.drop (pos + calcsize fmt * (i * k + x)))))) := by
  apply forLoop_ok
  intro i hi
  rw [List.mem_range] at hi
  apply forLoop_ok
  intro x hx
  rw [List.mem_range] at hx
  have e1 : (x + 1) * calcsize fmt ≤ k * calcsize fmt :=
    Nat.mul_le_mul_right _ (by omega)
  have e2 : (x + 1) * calcsize fmt = x * calcsize fmt + calcsize fmt := by ring
  have e3 : k * calcsize fmt = calcsize fmt * k := Nat.mul_comm k _
  have f1 : k * (i + 1) ≤ k * q := Nat.mul_le_mul_left k (by omega)
  have f2 : k * (i + 1) = k * i + k := by ring
  have f3 : calcsize fmt * (k * i + x + 1) ≤ calcsize fmt * (k * q + r) :=
    Nat.mul_le_mul_left _ (by omega)
  have e5 : pos + i * (calcsize fmt * k) + (x * calcsize fmt + calcsize fmt)
      = pos + calcsize fmt * (k * i + x + 1) := by ring
  have hidx : pos + i * (calcsize fmt * k) + x * calcsize fmt
      = pos + calcsize fmt * (i * k + x) := by ring
  rw [unpackFrom_slice fmt bytes (pos + i * (calcsize fmt * k)) (calcsize fmt * k)
    (x * calcsize fmt) (by omega) (by omega)]
  rw [hidx]

theorem tail_rows_eval (fmt : List StructChar) (bytes : List UInt8)
    (pos k q r : Nat)
    (hlen : pos + calcsize fmt * (k * q + r) ≤ bytes.length) :
    forLoop
        (fun x => unpackFrom fmt
          ((bytes.drop (pos + q * (calcsize fmt * k))).take (calcsize fmt * r))
          (x * calcsize fmt))
        (List.range r)
      = .ok ((List.range r).map
          (fun x => decodeRecord fmt (bytes.drop (pos + calcsize fmt * (q * k + x))))) := by
  apply forLoop_ok
  intro x hx
  rw [List.mem_range] at hx
  have e1 : (x + 1) * calcsize fmt ≤ r * calcsize fmt :=
    Nat.mul_le_mul_right _ (by omega)
  have e2 : (x + 1) * calcsize fmt = x * calcsize fmt + calcsize fmt := by ring
  have e3 : r * calcsize fmt = calcsize fmt * r := Nat.mul_comm r _
  have f3 : calcsize fmt * (k * q + x + 1) ≤ calcsize fmt * (k * q + r) :=
    Nat.mul_le_mul_left _ (by omega)
  have e5 : pos + q * (calcsize fmt * k) + (x * calcsize fmt + calcsize fmt)
      = pos + calcsize fmt * (k * q + x + 1) := by ring
  have hidx : pos + q * (calcsize fmt * k) + x * calcsize fmt
      = pos + calcsize fmt * (q * k + x) := by ring
  rw [unpackFrom_slice fmt bytes (pos + q * (calcsize fmt * k)) (calcsize fmt * r)
    (x * calcsize fmt) (by omega) (by omega)]
  rw [hidx]


theorem beVertexDecode_eval (c : Nat) (props : List Property) (n : Nat)
    (bytes : List UInt8) (pos : Nat) (fmt : List StructChar)
    (hf : buildFmt props = some fmt) (hsz : 0 < calcsize fmt)
    (hc : calcsize fmt ≤ c) (hlen : pos + calcsize fmt * n ≤ bytes.length) :
    ∃ tr, beVertexDecode c props ((n : Nat) : Int) bytes pos
      = .ok ((List.range n).map
               (fun j => decodeRecord fmt (bytes.drop (pos + calcsize fmt * j))),
             tr, pos + calcsize fmt * n) := by
  have hszne : calcsize fmt ≠ 0 := Nat.pos_iff_ne_zero.mp hsz
  have hk1 : 1 ≤ c / calcsize fmt := (Nat.one_le_div_iff hsz).mpr hc
  have hrs : c - c % calcsize fmt = calcsize fmt * (c / calcsize fmt) := by
    have h := Nat.div_add_mod c (calcsize fmt)
    omega
  have hrsne : calcsize fmt * (c / calcsize fmt) ≠ 0 :=
    Nat.mul_ne_zero hszne (by omega)
  have hn : (c / calcsize fmt) * (n / (c / calcsize fmt)) + n % (c / calcsize fmt) = n :=
    Nat.div_add_mod n (c / calcsize fmt)
  have hlen' : pos + calcsize fmt *
      ((c / calcsize fmt) * (n / (c / calcsize fmt)) + n % (c / calcsize fmt))
      ≤ bytes.length := by rw [hn]; exact hlen
  simp only [beVertexDecode, hf]
  rw [if_neg hszne]
  rw [hrs, if_neg hrsne]
  have htot : (calcsize fmt : Int) * ((n : Nat) : Int) = ((calcsize fmt * n : Nat) : Int) := by
    push_cast
    ring
  rw [htot, nat_fdiv, nat_fmod]
  rw [Nat.mul_div_mul_left n (c / calcsize fmt) hsz]
  rw [Nat.mul_mod_mul_left (calcsize fmt) n (c / calcsize fmt)]
  rw [Int.toNat_natCast, Int.toNat_natCast]
  rw [nat_fdiv]
  rw [Nat.mul_div_cancel_left (n % (c / calcsize fmt)) hsz]
  rw [Int.toNat_natCast]
  rw [Nat.mul_div_cancel_left (c / calcsize fmt) hsz]
  rw [chunk_rows_eval fmt bytes pos (c / calcsize fmt) (n / (c / calcsize fmt))
    (n % (c / calcsize fmt)) hlen']
  rw [tail_rows_eval fmt bytes pos (c / calcsize fmt) (n / (c / calcsize fmt))
    (n % (c / calcsize fmt)) hlen']
  dsimp only
  have hflat := flatten_grid
    (fun j => decodeRecord fmt (List.drop (pos + calcsize fmt * j) bytes))
    (c / calcsize fmt) (n / (c / calcsize fmt))
  rw [hflat]
  have happ := (range_map_add
    (fun j => decodeRecord fmt (List.drop (pos + calcsize fmt * j) bytes))
    (n / (c / calcsize fmt) * (c / calcsize fmt)) (n % (c / calcsize fmt))).symm
  rw [happ]
  have hqkr : n / (c / calcsize fmt) * (c / calcsize fmt) + n % (c / calcsize fmt) = n := by
    rw [Nat.mul_comm]
    exact hn
  rw [hqkr]
  have hsum : pos + n / (c / calcsize fmt) * (calcsize fmt * (c / calcsize fmt))
      + calcsize fmt * (n % (c / calcsize fmt)) = pos + calcsize fmt * n := by
    have h2 : pos + n / (c / calcsize fmt) * (calcsize fmt * (c / calcsize fmt))
        + calcsize fmt * (n % (c / calcsize fmt))
        = pos + calcsize fmt * ((c / calcsize fmt) * (n / (c / calcsize fmt))
            + n % (c / calcsize fmt)) := by ring
    rw [h2, hn]
  rw [hsum, Nat.min_eq_left hlen]
  exact ⟨_, rfl⟩

/-! ### Claim theorems -/

/-- C1: the claim asserts that decoding a `binary_little_endian` file yields
the same `(vertices, faces)` as decoding the `binary_big_endian` file of
identical logical content.  On the code the little-endian branch is `pass`:
for a one-vertex schema of three `uchar` properties (whose byte content is
identical in both orders), the big-endian decode yields the vertex `(1,2,3)`
while the little-endian decode yields nothing and leaves the stream
untouched. -/
theorem c1_little_endian_unimplemented :
    load_LoadObject_bytes (some "binary_big_endian")
        [⟨"vertex", 1, [⟨"x", "uchar", none⟩, ⟨"y", "uchar", none⟩, ⟨"z", "uchar", none⟩]⟩]
        ([1, 2, 3] : List UInt8) 0
      = .ok ([[.int 1, .int 2, .int 3]], [], [.init 1, .inc 1], 3) ∧
    load_LoadObject_bytes (some "binary_little_endian")
        [⟨"vertex", 1, [⟨"x", "uchar", none⟩, ⟨"y", "uchar", none⟩, ⟨"z", "uchar", none⟩]⟩]
        ([1, 2, 3] : List UInt8) 0
      = .ok ([], [], [], 0) := by
  constructor <;> decide

/-- C2: the claim asserts that running recognize-then-decode twice on the same
well-formed ASCII file yields identical `(vertices, faces, comments)`.
`load_Recognize` clears `self.elements` but not `self.comments`, so the second
run returns the file's comment twice. -/
theorem c2_comments_accumulate :
    (do
      let pr1 ← runLoad initState
        ["ply", "format ascii 1.0", "comment hello", "element vertex 1",
         "property uchar x", "property uchar y", "property uchar z",
         "end_header", "1 2 3"]
      let pr2 ← runLoad pr1.2
        ["ply", "format ascii 1.0", "comment hello", "element vertex 1",
         "property uchar x", "property uchar y", "property uchar z",
         "end_header", "1 2 3"]
      Except.ok (pr1.1.2.2, pr2.1.2.2))
    = Except.ok (["hello"], ["hello", "hello"]) := by
  rfl

/-- C3: the claim asserts that `Monitor.Initialize` is called with the
element's declared count before its increments.  For a `vertex` element of
100 one-byte records the code calls `Initialize(num_reads + 1) = Initialize 1`
(the number of chunk reads) and then increments 100 times; the event
`Initialize 100` never occurs. -/
theorem c3_initialize_uses_read_count :
    beVertexDecode 1024 [⟨"x", "uchar", none⟩] 100 (List.replicate 100 (7 : UInt8)) 0
      = .ok (List.replicate 100 [.int 7],
             .init 1 :: List.replicate 100 (.inc 1), 100) ∧
    MonEvent.init 100 ∉ MonEvent.init 1 :: List.replicate 100 (MonEvent.inc 1) := by
  constructor <;> decide

set_option maxRecDepth 100000 in
/-- C4 counterexample: the claim includes chunk-size invariance when a single
record is larger than the chunk.  A 129-`double` record is 1032 bytes:
with a 1024-byte chunk `read_size` is 0 and `total_size // read_size` raises
`ZeroDivisionError`, while a 4096-byte chunk decodes the record. -/
theorem c4_record_larger_than_chunk_diverges :
    beVertexDecode 1024 (List.replicate 129 ⟨"p", "double", none⟩) 1
        (List.replicate 1032 (0 : UInt8)) 0
      = .error .zeroDivisionError ∧
    beVertexDecode 4096 (List.replicate 129 ⟨"p", "double", none⟩) 1
        (List.replicate 1032 (0 : UInt8)) 0
      = .ok ([List.replicate 129 (.f64 0)], [.init 1, .inc 1], 1032) := by
  constructor <;> decide

/-- C5 counterexample: the claim asserts elements named neither `vertex` nor
`face` are decoded so that later elements read from the correct offset.  With
an `edge` element (one two-token record line) before a `vertex` element, the
code skips the `edge` element without consuming its line and decodes the
vertex from the edge's record line, yielding `(9, 9)`; decoding the vertex
from the correct offset yields `(1, 2, 3)`. -/
theorem c5_other_elements_not_consumed :
    asciiElements
        [⟨"edge", 1, [⟨"a", "uchar", none⟩, ⟨"b", "uchar", none⟩]⟩,
         ⟨"vertex", 1, [⟨"x", "uchar", none⟩, ⟨"y", "uchar", none⟩, ⟨"z", "uchar", none⟩]⟩]
        ["9 9", "1 2 3"]
      = .ok ([[.int 9, .int 9]], [], ["1 2 3"]) ∧
    asciiElements
        [⟨"vertex", 1, [⟨"x", "uchar", none⟩, ⟨"y", "uchar", none⟩, ⟨"z", "uchar", none⟩]⟩]
        ["1 2 3"]
      = .ok ([[.int 1, .int 2, .int 3]], [], []) ∧
    ([[Value.int 9, Value.int 9]] : List (List Value))
      ≠ [[Value.int 1, Value.int 2, Value.int 3]] := by
  refine ⟨by decide, by decide, by decide⟩

/-- C6 counterexample: the claim asserts a line with fewer tokens than the
property list fails with a `MalformedRecord` error.  For three declared
`uchar` properties and the two-token line `"1 2"`, the `zip` stops at the
shorter sequence and the decode succeeds with a silently truncated record. -/
theorem c6_short_line_accepted :
    asciiVertexLine
        [ascii_property_types "uchar", ascii_property_types "uchar",
         ascii_property_types "uchar"] "1 2"
      = .ok [.int 1, .int 2] := by
  decide

/-- C7 counterexample: the claim asserts the decoded list's length equals the
count token.  On the line `"3 0 1 2 7"` the code takes all four remaining
tokens although the count token is 3. -/
theorem c7_count_token_ignored :
    asciiFaceLine "3 0 1 2 7" = .ok [0, 1, 2, 7] ∧
    pyInt "3" = some 3 ∧
    ([0, 1, 2, 7] : List Int).length ≠ 3 := by
  refine ⟨by decide, by decide, by decide⟩

/-- C8 counterexample: the claim asserts the truncation error reports the
element name and the record index.  Two decodes of the same `face` schema that
fail at record index 1 (first file, whose record 0 is complete) and at record
index 0 (second file) produce the very same error value
`structErrorLoc 16 4 'i' 5`, so the error determines neither the record index
nor anything naming the element. -/
theorem c8_error_lacks_element_and_index :
    beFaceDecode ⟨"face", 2, [⟨"vertex_indices", "int", some "uchar"⟩]⟩
        ([1, 0, 0, 0, 0, 4, 0, 0, 0, 0, 0, 0, 0, 0] : List UInt8) 0
      = .error (.structErrorLoc 16 4 .i 5) ∧
    beFaceDecode ⟨"face", 2, [⟨"vertex_indices", "int", some "uchar"⟩]⟩
        ([0, 0, 0, 0, 0, 4, 0, 0, 0, 0, 0, 0, 0, 0] : List UInt8) 5
      = .error (.structErrorLoc 16 4 .i 5) ∧
    beFaceLoop ⟨"face", 2, [⟨"vertex_indices", "int", some "uchar"⟩]⟩
        ([1, 0, 0, 0, 0, 4, 0, 0, 0, 0, 0, 0, 0, 0] : List UInt8) 1 0
      = .ok ([[.int 0]], [.inc 1], 5) := by
  refine ⟨by decide, by decide, by decide⟩

/-- C9 counterexample: the claim asserts end-of-stream before `end_header`
fails with a `HeaderTruncated` error distinct from the recoverable
not-recognized outcome.  A truncated header and a wrong magic line produce the
identical `NOTFOUND` outcome. -/
theorem c9_truncation_not_distinct :
    load_Recognize initState
        ["ply", "format ascii 1.0", "comment hi", "element vertex 1", "property uchar x"]
      = .error .notFound ∧
    load_Recognize initState ["xyz"] = .error .notFound := by
  constructor <;> decide

/-- C10 counterexample: the claim asserts a format line that does not split
into exactly three tokens fails with the recoverable `FormatMismatch`
outcome, not an unhandled exception.  The two-token line `"format ascii"`
makes the tuple unpacking raise `ValueError`, which is not the `NOTFOUND`
outcome. -/
theorem c10_short_format_line_raises :
    load_Recognize initState ["ply", "format ascii"] = .error .valueError ∧
    PyErr.valueError ≠ PyErr.notFound := by
  constructor <;> decide

/-- C5 amended: an element named neither `vertex` nor `face` falls through
both name tests of the decode loop, consuming no input at all, so the
following elements are decoded from the unadvanced stream position. -/
theorem c5_other_elements_skipped (e : Element) (rest : List Element) (lines : List String)
    (h1 : e.name ≠ "vertex") (h2 : e.name ≠ "face") :
    asciiElements (e :: rest) lines = asciiElements rest lines := by
  simp [asciiElements, h1, h2]

/-- Witness for `c5_other_elements_skipped` at a concrete `edge` element. -/
theorem c5_other_elements_skipped_witness :
    asciiElements [⟨"edge", 1, [⟨"a", "uchar", none⟩]⟩] ["7"] = asciiElements [] ["7"] :=
  c5_other_elements_skipped ⟨"edge", 1, [⟨"a", "uchar", none⟩]⟩ [] ["7"]
    (by decide) (by decide)

/-- C6 amended: an ASCII vertex line with fewer tokens than declared
properties is silently accepted — the `zip` truncates and the record has one
value per token present — and when the decode does fail it fails with a bare
conversion exception (`ValueError`/`TypeError`) that identifies neither the
element nor the record index. -/
theorem c6_short_line_truncated_silently :
    (∀ (types : List (Option (String → Option Value))) (line : String),
        (∀ tv ∈ types.zip (pySplit (pyStrip line)), ∃ v, convStep tv = Except.ok v) →
        ∃ vs, asciiVertexLine types line = .ok vs ∧
          vs.length = min types.length (pySplit (pyStrip line)).length) ∧
    (∀ (types : List (Option (String → Option Value))) (line : String) (e : PyErr),
        asciiVertexLine types line = .error e →
        e = PyErr.valueError ∨ e = PyErr.typeError) := by
  constructor
  · intro types line h
    obtain ⟨vs, hvs, hlen⟩ := forLoop_ok_exists convStep _ h
    exact ⟨vs, hvs, by rw [hlen, List.length_zip]⟩
  · intro types line e h
    obtain ⟨tv, _, htv⟩ := forLoop_error convStep _ e h
    rcases tv with ⟨t, v⟩
    cases t with
    | none =>
      simp only [convStep] at htv
      cases htv
      exact Or.inr rfl
    | some f =>
      cases hf : f v with
      | none => simp only [convStep, hf] at htv; cases htv; exact Or.inl rfl
      | some w => simp [convStep, hf] at htv

/-- Witness for `c6_short_line_truncated_silently`: three `uchar` properties
against the two-token line `"1 2"` give a two-value record; an unconvertible
token gives a bare `ValueError`. -/
theorem c6_short_line_truncated_silently_witness :
    (∃ vs, asciiVertexLine [ascii_property_types "uchar", ascii_property_types "uchar",
        ascii_property_types "uchar"] "1 2" = .ok vs ∧
        vs.length = min 3 (pySplit (pyStrip "1 2")).length) ∧
    (PyErr.valueError = PyErr.valueError ∨ PyErr.valueError = PyErr.typeError) := by
  constructor
  · exact c6_short_line_truncated_silently.1
      [ascii_property_types "uchar", ascii_property_types "uchar", ascii_property_types "uchar"]
      "1 2"
      (by
        intro tv htv
        cases htv with
        | head => exact ⟨Value.int 1, by decide⟩
        | tail _ h2 =>
          cases h2 with
          | head => exact ⟨Value.int 2, by decide⟩
          | tail _ h3 => cases h3)
  · exact c6_short_line_truncated_silently.2
      [ascii_property_types "uchar"] "x" PyErr.valueError (by decide)

/-- C7 amended: the ASCII face decoder drops the first token unexamined and
converts every remaining token of the line, so the decoded index list has one
entry per remaining token, regardless of the count token's value. -/
theorem c7_face_converts_all_tail_tokens (line : String) (t : String) (rest : List String)
    (h : pySplit (pyStrip line) = t :: rest)
    (hc : ∀ d ∈ rest, ∃ i, pyInt d = some i) :
    ∃ fc, asciiFaceLine line = .ok fc ∧ fc.length = rest.length := by
  unfold asciiFaceLine
  rw [h]
  have hstep : ∀ d ∈ rest, ∃ i, intStep d = .ok i := by
    intro d hd
    obtain ⟨i, hi⟩ := hc d hd
    exact ⟨i, by simp [intStep, hi]⟩
  simpa using forLoop_ok_exists intStep rest hstep

/-- Witness for `c7_face_converts_all_tail_tokens` on the line `"9 0 1"`. -/
theorem c7_face_converts_all_tail_tokens_witness :
    ∃ fc, asciiFaceLine "9 0 1" = .ok fc ∧ fc.length = 2 :=
  c7_face_converts_all_tail_tokens "9 0 1" "9" ["0", "1"] (by decide)
    (by
      intro d hd
      cases hd with
      | head => exact ⟨0, by decide⟩
      | tail _ h2 =>
        cases h2 with
        | head => exact ⟨1, by decide⟩
        | tail _ h3 => cases h3)

theorem headerLoop_comment_lines :
    ∀ (lines : List String) (comments : List String) (elements : List Element),
      (∀ l ∈ lines, startswith "comment" (pyStrip l) = true) →
      headerLoop comments elements lines = .error .notFound
  | [], _, _, _ => rfl
  | l :: rest, comments, elements, h => by
    have hl := h l (List.mem_cons_self l rest)
    have h1 : pyStrip l ≠ "" := by
      intro hemp; rw [hemp] at hl; exact absurd hl (by decide)
    have h2 : pyStrip l ≠ "end_header" := by
      intro hemp; rw [hemp] at hl; exact absurd hl (by decide)
    have ih := headerLoop_comment_lines rest (comments ++ [strDrop (pyStrip l) 8]) elements
      (fun x hx => h x (List.mem_cons_of_mem l hx))
    simp [headerLoop, h1, h2, hl, ih]

/-- C9 amended: with the magic and format lines recognized, reaching
end-of-stream before an `end_header` line makes recognition fail with the
very same recoverable `NOTFOUND` outcome that a format mismatch produces —
there is no distinct fatal header-truncation error. -/
theorem c9_truncated_header_is_notfound (l0 l1 : String) (rest : List String)
    (st : LoaderState) (a fm c : String)
    (h0 : pyStrip l0 = "ply") (h1 : pySplit l1 = [a, fm, c])
    (hfm : fm = "ascii" ∨ fm = "binary_big_endian" ∨ fm = "binary_little_endian")
    (hrest : ∀ l ∈ rest, startswith "comment" (pyStrip l) = true) :
    load_Recognize st (l0 :: l1 :: rest) = .error .notFound := by
  unfold load_Recognize
  have hloop := headerLoop_comment_lines rest st.comments [] hrest
  simp only [readline, h0, h1]
  rcases hfm with rfl | rfl | rfl <;> simp [hloop]

/-- Witness for `c9_truncated_header_is_notfound` on a concrete truncated
header. -/
theorem c9_truncated_header_is_notfound_witness :
    load_Recognize initState ["ply", "format ascii 1.0", "comment a"] = .error .notFound :=
  c9_truncated_header_is_notfound "ply" "format ascii 1.0" ["comment a"] initState
    "format" "ascii" "1.0" (by decide) (by decide) (Or.inl rfl)
    (by
      intro l hl
      cases hl with
      | head => decide
      | tail _ h2 => cases h2)

/-- C10 amended: a format line that splits into exactly three tokens with an
unknown format name fails with the recoverable `NOTFOUND` outcome, but a
format line that does not split into exactly three tokens raises an unhandled
`ValueError` at the tuple unpacking instead. -/
theorem c10_format_line_outcomes (l0 l1 : String) (rest : List String)
    (st : LoaderState) (h0 : pyStrip l0 = "ply") :
    (∀ a fm c, pySplit l1 = [a, fm, c] → fm ≠ "ascii" → fm ≠ "binary_big_endian" →
        fm ≠ "binary_little_endian" →
        load_Recognize st (l0 :: l1 :: rest) = .error .notFound) ∧
    ((pySplit l1).length ≠ 3 → load_Recognize st (l0 :: l1 :: rest) = .error .valueError) := by
  constructor
  · intro a fm c h1 hf1 hf2 hf3
    unfold load_Recognize
    simp [readline, h0, h1, hf1, hf2, hf3]
  · intro h1
    unfold load_Recognize
    simp only [readline, h0]
    rcases hsp : pySplit l1 with _ | ⟨x, _ | ⟨y, _ | ⟨z, _ | ⟨w, tl⟩⟩⟩⟩
    · simp
    · simp
    · simp
    · rw [hsp] at h1; simp at h1
    · simp

/-- Witness for `c10_format_line_outcomes`: an unknown format name versus a
two-token format line. -/
theorem c10_format_line_outcomes_witness :
    load_Recognize initState ["ply", "format foo 1.0"] = .error .notFound ∧
    load_Recognize initState ["ply", "format ascii"] = .error .valueError := by
  constructor
  · exact (c10_format_line_outcomes "ply" "format foo 1.0" [] initState (by decide)).1
      "format" "foo" "1.0" (by decide) (by decide) (by decide) (by decide)
  · exact (c10_format_line_outcomes "ply" "format ascii" [] initState (by decide)).2
      (by decide)

/-- C8 amended: a binary face record whose count field is readable but whose
list values are truncated fails with the re-raised `struct.error` whose
observable report carries the attempted byte size, the format (count and
element type) and the byte offset at the start of the failing record — but
neither the element name nor the record index; a record whose count field
itself is truncated fails with a bare `struct.error` carrying nothing. -/
theorem c8_truncation_reports_offset_only (e : Element) (p0 : Property)
    (ps : List Property) (sname : String) (cc t : StructChar)
    (bytes : List UInt8) (pos : Nat) (m : Int)
    (hp : e.properties = p0 :: ps) (hsz : p0.size = some sname)
    (hcc : binary_property_types sname = some cc)
    (ht : binary_property_types p0.type = some t)
    (hcount : pos + calcsize [cc] ≤ bytes.length)
    (hdec : decodeScalarBE cc ((bytes.drop pos).take (calcsize [cc])) = .int m)
    (hm : 0 ≤ m)
    (htrunc : bytes.length < pos + calcsize [cc] + calcsize (List.replicate m.toNat t)) :
    beFaceRecord e bytes pos
      = .error (.structErrorLoc (calcsize (List.replicate m.toNat t)) m.toNat t pos) ∧
    (∀ (bytes2 : List UInt8) (pos2 : Nat), bytes2.length < pos2 + calcsize [cc] →
        beFaceRecord e bytes2 pos2 = .error .structError) := by
  constructor
  · unfold beFaceRecord
    rw [hp]
    have hlen1 : ((bytes.drop pos).take (calcsize [cc])).length = calcsize [cc] := by
      simp [List.length_take, List.length_drop]
      omega
    have hmlt : ¬ (m < 0) := not_lt.mpr hm
    have hlen2 : ((bytes.drop (pos + calcsize [cc])).take
        (calcsize (List.replicate m.toNat t))).length
        ≠ calcsize (List.replicate m.toNat t) := by
      simp only [List.length_take, List.length_drop]
      omega
    simp only [hsz, hcc]
    rw [if_neg (fun hne => hne hlen1)]
    simp only [hdec, ht]
    rw [if_neg hmlt]
    rw [if_pos hlen2]
  · intro bytes2 pos2 hshort
    unfold beFaceRecord
    rw [hp]
    have hc := csize_pos cc
    have hcs : calcsize [cc] = csize cc := by simp [calcsize]
    have hlen1 : ((bytes2.drop pos2).take (calcsize [cc])).length ≠ calcsize [cc] := by
      simp only [List.length_take, List.length_drop]
      omega
    simp only [hsz, hcc]
    rw [if_pos hlen1]

/-- Witness for `c8_truncation_reports_offset_only`: the spec's scenario, a
declared index count of 4 with only two indices' worth of bytes remaining,
and a record with no count byte at all. -/
theorem c8_truncation_reports_offset_only_witness :
    beFaceRecord ⟨"face", 2, [⟨"vertex_indices", "int", some "uchar"⟩]⟩
        ([4, 0, 0, 0, 0, 0, 0, 0, 0] : List UInt8) 0
      = .error (.structErrorLoc 16 4 .i 0) ∧
    beFaceRecord ⟨"face", 2, [⟨"vertex_indices", "int", some "uchar"⟩]⟩
        ([] : List UInt8) 0
      = .error .structError := by
  have h := c8_truncation_reports_offset_only
    ⟨"face", 2, [⟨"vertex_indices", "int", some "uchar"⟩]⟩
    ⟨"vertex_indices", "int", some "uchar"⟩ [] "uchar" .B .i
    ([4, 0, 0, 0, 0, 0, 0, 0, 0] : List UInt8) 0 4
    rfl rfl (by decide) (by decide) (by decide) (by decide) (by decide) (by decide)
  exact ⟨h.1, h.2 ([] : List UInt8) 0 (by decide)⟩

/-- C4 amended: for every pair of chunk buffer sizes at least as large as the
record size, chunked big-endian scalar decoding yields the identical ordered
record list and final stream position (the monitor traces may differ, as the
initialize total depends on the chunking). -/
theorem c4_chunk_size_invariance (c1 c2 : Nat) (props : List Property) (n : Nat)
    (bytes : List UInt8) (pos : Nat) (fmt : List StructChar)
    (hf : buildFmt props = some fmt) (hsz : 0 < calcsize fmt)
    (hc1 : calcsize fmt ≤ c1) (hc2 : calcsize fmt ≤ c2)
    (hlen : pos + calcsize fmt * n ≤ bytes.length) :
    ∃ vs p t1 t2,
      beVertexDecode c1 props ((n : Nat) : Int) bytes pos = .ok (vs, t1, p) ∧
      beVertexDecode c2 props ((n : Nat) : Int) bytes pos = .ok (vs, t2, p) := by
  obtain ⟨t1, h1⟩ := beVertexDecode_eval c1 props n bytes pos fmt hf hsz hc1 hlen
  obtain ⟨t2, h2⟩ := beVertexDecode_eval c2 props n bytes pos fmt hf hsz hc2 hlen
  exact ⟨_, _, t1, t2, h1, h2⟩

/-- Witness for `c4_chunk_size_invariance`: two two-byte records decoded with
1024- and 4096-byte chunks. -/
theorem c4_chunk_size_invariance_witness :
    ∃ vs p t1 t2,
      beVertexDecode 1024 [⟨"x", "uchar", none⟩, ⟨"y", "uchar", none⟩] ((2 : Nat) : Int)
        ([1, 2, 3, 4] : List UInt8) 0 = .ok (vs, t1, p) ∧
      beVertexDecode 4096 [⟨"x", "uchar", none⟩, ⟨"y", "uchar", none⟩] ((2 : Nat) : Int)
        ([1, 2, 3, 4] : List UInt8) 0 = .ok (vs, t2, p) :=
  c4_chunk_size_invariance 1024 4096 [⟨"x", "uchar", none⟩, ⟨"y", "uchar", none⟩] 2
    ([1, 2, 3, 4] : List UInt8) 0 [.B, .B]
    (by decide) (by decide) (by decide) (by decide) (by decide)

end Plykit
